import Mathlib

/-!
# Verification of the Thunderbird Chiptune Composer audio engine

Shallow embedding of `src/src/audio/engine.js` (class `AudioEngine`):
the note-name parser, the ADSR note scheduler, the transport state
machine (start/pause/stop), the lookahead scheduler's step advance,
and the instrument store.  Times, gains and frequencies are modelled
over `ℚ` (and `ℝ` where a real exponential is required); the cursor
and MIDI numbers over `ℤ`, matching JS numbers on the integral values
actually reached.
-/

namespace TbirdEngine

/-! ## Frequency resolver: `parseNoteString` (engine.js lines 264-313)

The source trims and upper-cases the token, matches the regex
`^([A-G])([#]?)-([0-9])$`, looks the note name up in a semitone table,
computes `midi = semitone + 12*octave + 12`, rejects midi outside
[0,127], and returns `440 * 2^((midi-69)/12)`. -/

/-- JS whitespace as stripped by `String.prototype.trim` (the
characters that occur in practice). -/
def isJsSpace (c : Char) : Bool := c = ' ' ∨ c = '\t' ∨ c = '\n' ∨ c = '\r'

/-- `String.prototype.trim`: strip whitespace from both ends. -/
def jsTrim (cs : List Char) : List Char :=
  ((cs.dropWhile isJsSpace).reverse.dropWhile isJsSpace).reverse

/-- `String.prototype.toUpperCase` on one ASCII character. -/
def jsToUpperChar (c : Char) : Char :=
  if 'a' ≤ c ∧ c ≤ 'z' then Char.ofNat (c.toNat - 32) else c

/-- The regex match `^([A-G])([#]?)-([0-9])$` on the upper-cased,
trimmed character list: returns (note letter, sharp?, octave digit). -/
def matchNoteToken : List Char → Option (Char × Bool × Char)
  | [b, '-', d] =>
    if ('A' ≤ b ∧ b ≤ 'G') ∧ ('0' ≤ d ∧ d ≤ '9') then some (b, false, d) else none
  | [b, '#', '-', d] =>
    if ('A' ≤ b ∧ b ≤ 'G') ∧ ('0' ≤ d ∧ d ≤ '9') then some (b, true, d) else none
  | _ => none

/-- The `noteValues` semitone-from-C table of engine.js lines 283-291. -/
def noteValues : List (String × ℤ) :=
  [("C", 0), ("C#", 1), ("D", 2), ("D#", 3), ("E", 4), ("F", 5), ("F#", 6),
   ("G", 7), ("G#", 8), ("A", 9), ("A#", 10), ("B", 11)]

/-- String-processing part of `parseNoteString`: everything up to the
MIDI-range check (engine.js lines 265-307).  Returns the MIDI note
number when the token is accepted, `none` where the source returns
`null`. -/
def parseNoteMidi (noteString : String) : Option ℤ :=
  let cs := noteString.data
  if cs = [] then none                    -- `!noteString` (empty string is falsy)
  else if jsTrim cs = ['-', '-', '-'] then none
  else
    match matchNoteToken (jsTrim (cs.map jsToUpperChar)) with
    | none => none
    | some (b, sharp, d) =>
      let noteName := String.mk [b] ++ (if sharp then "#" else "")
      match noteValues.lookup noteName with
      | none => none                       -- unknown note name (E#, B#): warn + null
      | some semitone =>
        let octave : ℤ := (d.toNat - '0'.toNat : ℕ)
        let midiNote := semitone + octave * 12 + 12
        if midiNote < 0 ∨ midiNote > 127 then none else some midiNote

/-- `440 * Math.pow(2, (midiNote - 69) / 12)` (engine.js line 310). -/
noncomputable def noteFrequency (midiNote : ℤ) : ℝ :=
  440 * (2 : ℝ) ^ (((midiNote : ℝ) - 69) / 12)

/-- `parseNoteString` (engine.js lines 264-313): frequency in Hz, or
`none` where the source returns `null`.  (The string processing
`parseNoteMidi` is executable; only the real-valued frequency is not.) -/
noncomputable def parseNoteString (noteString : String) : Option ℝ :=
  (parseNoteMidi noteString).map noteFrequency

/-! ## Transport state machine and scheduler (engine.js lines 152-224, 319-345)

The fields of the `AudioEngine` instance that the transport and the
scheduling loop read and write.  Times are rationals (the audio clock),
the step cursor is an integer (so "never negative" is a real statement).
`scheduleAheadTime` is the constant `0.1`, the resume lead-in `0.05`,
and the loop re-arm interval `scheduleAheadTime/2`; they appear as the
literals `1/10` and `1/20` below. -/

/-- State of the Web Audio `AudioContext` as the engine observes it
(`null`, `running`, `suspended`, `closed`). -/
inductive CtxState
  | noCtx
  | running
  | suspended
  | closed
deriving DecidableEq

/-- The transport/scheduler fields of the `AudioEngine` object. -/
structure EngineState where
  isPlaying : Bool
  isPaused : Bool
  currentStep : ℤ
  nextNoteTime : ℚ
  bpm : ℚ
  maxSteps : ℤ
deriving DecidableEq

/-- `calculateStepDuration` (engine.js lines 199-201): `60.0 / this.bpm`. -/
def calculateStepDuration (s : EngineState) : ℚ := 60 / s.bpm

/-- One iteration of the `while` body of `scheduler` (engine.js lines
209-222): dispatch the current step (no transport-state effect), advance
`nextNoteTime` by the step duration, increment `currentStep` and wrap it
to 0 at `maxSteps`. -/
def schedulerAdvance (s : EngineState) : EngineState :=
  let s1 := { s with nextNoteTime := s.nextNoteTime + calculateStepDuration s }
  let c := s1.currentStep + 1
  { s1 with currentStep := if c ≥ s1.maxSteps then 0 else c }

/-- The `doStart` closure inside `startPlayback` (engine.js lines
164-177), up to the point where it re-enters the scheduling loop:
fresh start (clock never primed, or cursor at 0) re-bases
`nextNoteTime` to `now + 0.05`; a resume from pause clamps it forward
to at least `now + 0.05`. -/
def doStart (now : ℚ) (s : EngineState) : EngineState :=
  let s1 := { s with isPlaying := true, isPaused := false }
  if s.nextNoteTime = 0 ∨ s.currentStep = 0 then
    { s1 with currentStep := 0, nextNoteTime := now + 1/20 }
  else
    { s1 with nextNoteTime := max s.nextNoteTime (now + 1/20) }

/-- `startPlayback` (engine.js lines 152-193).  `resumeOk` is whether
the asynchronous `audioContext.resume()` promise fulfills; the returned
state is the one after that promise settles.  The returned `Bool` is
the value `startPlayback` itself returns to its caller: note that in
the suspended branch the function has already returned `true` before
the promise settles, so a resume failure is not visible in it (the
`return false` on line 187 only leaves the `.catch` callback). -/
def startPlayback (ctx : CtxState) (resumeOk : Bool) (now : ℚ) (s : EngineState) :
    EngineState × Bool :=
  if s.isPlaying ∧ ¬s.isPaused then (s, true)
  else if ctx = CtxState.noCtx ∨ ctx = CtxState.closed then
    ({ s with isPlaying := false, isPaused := false }, false)
  else if ctx = CtxState.suspended then
    if resumeOk then (doStart now s, true)
    else ({ s with isPlaying := false, isPaused := false }, true)
  else (doStart now s, true)

/-- `stopPlayback` (engine.js lines 319-330). -/
def stopPlayback (s : EngineState) : EngineState × Bool :=
  ({ s with isPlaying := false, isPaused := false,
            currentStep := 0, nextNoteTime := 0 }, true)

/-- `pausePlayback` (engine.js lines 335-345): no-op returning `false`
unless Playing and not Paused; otherwise cancels the re-arm timer and
sets Paused, leaving `currentStep` and `nextNoteTime` untouched. -/
def pausePlayback (s : EngineState) : EngineState × Bool :=
  if ¬s.isPlaying ∨ s.isPaused then (s, false)
  else ({ s with isPaused := true }, true)

/-! ## Instruments and the ADSR envelope (engine.js lines 16-25, 101-147)

Instrument definitions are arbitrary JS objects, so every field is an
`Option`; JS falsiness (`undefined` or `0` for numbers, `undefined` or
`""` for strings) drives the defaulting in `scheduleNote`. -/

/-- An instrument definition object.  `none` models an absent
(`undefined`) field. -/
structure Instrument where
  id : Option String := none
  name : Option String := none
  waveform : Option String := none
  attack : Option ℚ := none
  decay : Option ℚ := none
  sustainLevel : Option ℚ := none
  releaseTime : Option ℚ := none
  volume : Option ℚ := none
deriving DecidableEq

/-- `this.defaultInstrument` (engine.js lines 16-25). -/
def defaultInstrument : Instrument :=
  { id := some "default", name := some "Default ADSR", waveform := some "sine",
    attack := some (1/50), decay := some (3/20), sustainLevel := some (7/10),
    releaseTime := some (1/5), volume := some (7/10) }

/-- A note event handed to `scheduleNote`; `pitch` is the resolved
frequency, absent (`undefined` / non-numeric) fields are `none`. -/
structure NoteInfo where
  pitch : Option ℚ := none
  velocity : Option ℚ := none
deriving DecidableEq

/-- `Math.max(0, Math.min(1, x))`. -/
def clamp01 (x : ℚ) : ℚ := max 0 (min 1 x)

/-- The JS idiom `x || d` on a possibly-absent number: `undefined` and
`0` are falsy and select the default. -/
def jsOrQ (x : Option ℚ) (d : ℚ) : ℚ :=
  match x with
  | none => d
  | some v => if v = 0 then d else v

/-- The JS idiom `x || d` on a possibly-absent string: `undefined` and
`""` are falsy and select the default. -/
def jsOrStr (x : Option String) (d : String) : String :=
  match x with
  | none => d
  | some v => if v = "" then d else v

/-- One call on the note's `gainNode.gain` audio parameter. -/
inductive GainEvent
  | setValueAtTime (v t : ℚ)
  | linearRampToValueAtTime (v t : ℚ)
deriving DecidableEq

/-- Everything `scheduleNote` commits to the audio graph for one note:
oscillator configuration and the ordered gain-automation events. -/
structure ScheduledNote where
  frequency : ℚ
  waveform : String
  attack : ℚ
  decay : ℚ
  sustain : ℚ
  release : ℚ
  peakVolume : ℚ
  gainEvents : List GainEvent
  oscStartTime : ℚ
  oscStopTime : ℚ
deriving DecidableEq

/-- `scheduleNote` (engine.js lines 101-147).  Returns `none` on the
early-return (warn) paths, otherwise the scheduled audio events. -/
def scheduleNote (ctx : CtxState) (noteInfo : Option NoteInfo) (time duration : ℚ)
    (instrumentData : Option Instrument) : Option ScheduledNote :=
  if ctx = CtxState.noCtx ∨ ctx = CtxState.closed then none
  else
    match noteInfo with
    | none => none
    | some info =>
      match info.pitch with
      | none => none
      | some pitch =>
        let activeInstrument := instrumentData.getD defaultInstrument
        let instrumentVolume :=
          match activeInstrument.volume with
          | some v => clamp01 v
          | none => 7/10
        let noteVelocity :=
          match info.velocity with
          | some v => clamp01 v
          | none => 7/10
        let peakVolume := instrumentVolume * noteVelocity
        let attack := max (1/1000) (jsOrQ activeInstrument.attack (1/100))
        let decay := max (1/1000) (jsOrQ activeInstrument.decay (1/10))
        let sustain := clamp01 ((activeInstrument.sustainLevel).getD (7/10))
        let release := max (1/1000) (jsOrQ activeInstrument.releaseTime (1/5))
        let noteEndTime := time + duration
        some
          { frequency := pitch
            waveform := jsOrStr activeInstrument.waveform "sine"
            attack := attack, decay := decay, sustain := sustain, release := release
            peakVolume := peakVolume
            gainEvents :=
              [GainEvent.setValueAtTime 0 time,
               GainEvent.linearRampToValueAtTime peakVolume (time + attack),
               GainEvent.linearRampToValueAtTime (peakVolume * sustain)
                 (time + attack + decay)]
              ++ (if noteEndTime > time + attack + decay then
                    [GainEvent.setValueAtTime (peakVolume * sustain) noteEndTime]
                  else [])
              ++ [GainEvent.linearRampToValueAtTime 0 (noteEndTime + release)]
            oscStartTime := time
            oscStopTime := noteEndTime + release + 1/20 }

/-- Value of an audio parameter at time `t`, given its automation
events in time order, the time `t0` and value `v0` it last held before
them (Web Audio semantics: `setValueAtTime` holds a constant,
`linearRampToValueAtTime` ramps linearly from the previous event's
value and time). -/
def envValueFrom : ℚ → ℚ → List GainEvent → ℚ → ℚ
  | _, v0, [], _ => v0
  | _, v0, GainEvent.setValueAtTime v te :: es, t =>
      if te ≤ t then envValueFrom te v es t else v0
  | t0, v0, GainEvent.linearRampToValueAtTime v te :: es, t =>
      if te ≤ t then envValueFrom te v es t
      else v0 + (v - v0) * (t - t0) / (te - t0)

/-- Value of the note's gain parameter at time `t` (a fresh `GainNode`
holds gain 1 before any automation). -/
def envValueAt (events : List GainEvent) (t : ℚ) : ℚ :=
  envValueFrom 0 1 events t

/-! ## Instrument store (engine.js lines 389-460)

`this.instruments` is a JS `Map`; modelled as an association list with
`Map` semantics: `set` updates the value in place when the key exists
(keeping insertion order) and appends otherwise; iteration order of
`values()` is insertion order. -/

/-- `Map.prototype.get`: first entry with the key, if any. -/
def mapGet : List (String × Instrument) → String → Option Instrument
  | [], _ => none
  | (a, b) :: rest, k => if k = a then some b else mapGet rest k

/-- `Map.prototype.set`: update in place if the key is present
(insertion order kept), else append. -/
def mapSet (insts : List (String × Instrument)) (k : String) (v : Instrument) :
    List (String × Instrument) :=
  if (mapGet insts k).isSome then
    insts.map (fun p => if p.1 = k then (k, v) else p)
  else insts ++ [(k, v)]

/-- `getInstrument` (engine.js lines 403-405):
`this.instruments.get(instrumentId) || this.defaultInstrument`
(a stored instrument object is always truthy). -/
def getInstrument (insts : List (String × Instrument)) (instrumentId : String) :
    Instrument :=
  (mapGet insts instrumentId).getD defaultInstrument

/-- `loadInstrument` (engine.js lines 389-396): inserts/replaces by id;
warns and does nothing when the object or its id is falsy (`none`
models a falsy object, an absent id or the falsy id `""`). -/
def loadInstrument (insts : List (String × Instrument))
    (instrumentObject : Option Instrument) : List (String × Instrument) :=
  match instrumentObject with
  | none => insts
  | some obj =>
    match obj.id with
    | none => insts
    | some i => if i = "" then insts else mapSet insts i obj

/-- `getInstrumentsData` (engine.js lines 433-435):
`Array.from(this.instruments.values())` in insertion order. -/
def getInstrumentsData (insts : List (String × Instrument)) : List Instrument :=
  insts.map Prod.snd

/-- `loadInstrumentsData` (engine.js lines 441-460): clears the table,
then, if the argument is an array, loads each entry through
`loadInstrument`; `none` models a falsy/non-array argument (warn, table
stays cleared).  The trailing lines 452-459 of the source are dead
comments mutating nothing. -/
def loadInstrumentsData (_insts : List (String × Instrument))
    (instrumentsArray : Option (List (Option Instrument))) :
    List (String × Instrument) :=
  match instrumentsArray with
  | none => []
  | some arr => arr.foldl loadInstrument []

/-- Whether `loadInstrument` accepts an entry: both the object and its
`id` must be truthy (object present, id present and not `""`). -/
def validEntry : Option Instrument → Bool
  | none => false
  | some obj =>
    match obj.id with
    | none => false
    | some i => if i = "" then false else true

/-- The key under which a valid instrument is stored. -/
def keyOf (i : Instrument) : String := i.id.getD ""

/-- The concrete note used as a witness below: default instrument,
pitch 440 Hz, velocity 0.5, start time 0, note-on duration 1 s. -/
def sampleNote : ScheduledNote :=
  { frequency := 440, waveform := "sine",
    attack := 1/50, decay := 3/20, sustain := 7/10, release := 1/5,
    peakVolume := 7/20,
    gainEvents := [GainEvent.setValueAtTime 0 0,
      GainEvent.linearRampToValueAtTime (7/20) (1/50),
      GainEvent.linearRampToValueAtTime (49/200) (17/100),
      GainEvent.setValueAtTime (49/200) 1,
      GainEvent.linearRampToValueAtTime 0 (6/5)],
    oscStartTime := 0, oscStopTime := 5/4 }

/-! ## Theorems -/

theorem iterate_schedulerAdvance_maxSteps (s : EngineState) (n : ℕ) :
    (schedulerAdvance^[n] s).maxSteps = s.maxSteps := by
  induction n with
  | zero => rfl
  | succ k ih => rw [Function.iterate_succ_apply']; exact ih

theorem schedulerAdvance_currentStep (s : EngineState) :
    (schedulerAdvance s).currentStep =
      if s.currentStep + 1 ≥ s.maxSteps then 0 else s.currentStep + 1 := rfl

/-- C1: however many scheduler iterations advance the step, the cursor
stays in `[0, maxSteps)`: it wraps to 0 on reaching the pattern length,
never goes negative, never reaches the length. -/
theorem scheduler_stepCursor_invariant (s : EngineState) (n : ℕ)
    (hm : 0 < s.maxSteps) (h0 : 0 ≤ s.currentStep) (h1 : s.currentStep < s.maxSteps) :
    0 ≤ (schedulerAdvance^[n] s).currentStep ∧
      (schedulerAdvance^[n] s).currentStep < s.maxSteps := by
  induction n with
  | zero => exact ⟨h0, h1⟩
  | succ k ih =>
    obtain ⟨ih0, ih1⟩ := ih
    rw [Function.iterate_succ_apply', schedulerAdvance_currentStep,
      iterate_schedulerAdvance_maxSteps]
    by_cases hc : (schedulerAdvance^[k] s).currentStep + 1 ≥ s.maxSteps
    · rw [if_pos hc]; exact ⟨le_refl 0, hm⟩
    · rw [if_neg hc]; push_neg at hc; exact ⟨by omega, hc⟩

/-- Witness for C1 at a concrete engine state (16 steps, 20 advances). -/
theorem scheduler_stepCursor_invariant_witness :
    0 < (16:ℤ) ∧ 0 ≤ ((0:ℤ)) ∧ (0:ℤ) < 16 ∧
    (0 ≤ (schedulerAdvance^[20] ⟨true, false, 0, 0, 120, 16⟩).currentStep ∧
      (schedulerAdvance^[20] (⟨true, false, 0, 0, 120, 16⟩ : EngineState)).currentStep < 16) :=
  ⟨by decide, by decide, by decide,
    scheduler_stepCursor_invariant ⟨true, false, 0, 0, 120, 16⟩ 20
      (by decide) (by decide) (by decide)⟩

/-- C5: calling `start()` while already Playing and not Paused is a
no-op: the whole engine state (cursor and next-step time included) is
unchanged and the call reports success. -/
theorem startPlayback_idempotent (ctx : CtxState) (resumeOk : Bool) (now : ℚ)
    (s : EngineState) (hp : s.isPlaying = true) (hq : s.isPaused = false) :
    startPlayback ctx resumeOk now s = (s, true) := by
  unfold startPlayback
  rw [if_pos]
  simp [hp, hq]

/-- Witness for C5 at a concrete playing state. -/
theorem startPlayback_idempotent_witness :
    (⟨true, false, 3, 7, 120, 16⟩ : EngineState).isPlaying = true ∧
    (⟨true, false, 3, 7, 120, 16⟩ : EngineState).isPaused = false ∧
    startPlayback CtxState.running true 5 ⟨true, false, 3, 7, 120, 16⟩ =
      (⟨true, false, 3, 7, 120, 16⟩, true) :=
  ⟨rfl, rfl, startPlayback_idempotent CtxState.running true 5 _ rfl rfl⟩

/-- Counterexample to C6: when resuming a suspended audio clock fails,
the engine is indeed left Stopped, but `startPlayback` has already
returned `true` — the failure is not reported through the boolean
return value (the `return false` only leaves the promise callback). -/
theorem startPlayback_resumeFailure_returns_true :
    startPlayback CtxState.suspended false 0 ⟨false, false, 0, 0, 120, 16⟩ =
      (⟨false, false, 0, 0, 120, 16⟩, true) := by decide

/-- C6 (amended): for an engine not in active playback, `start()` with
a missing or closed audio output returns `false` and leaves the engine
Stopped; a failed resume of a suspended audio clock also leaves the
engine Stopped, but the call has already returned `true` (the failure
is only logged). -/
theorem startPlayback_failure_stops (now : ℚ) (s : EngineState)
    (h : s.isPlaying = false ∨ s.isPaused = true) :
    (∀ ctx resumeOk, (ctx = CtxState.noCtx ∨ ctx = CtxState.closed) →
      startPlayback ctx resumeOk now s =
        ({ s with isPlaying := false, isPaused := false }, false)) ∧
    startPlayback CtxState.suspended false now s =
      ({ s with isPlaying := false, isPaused := false }, true) := by
  have hcond : ¬(s.isPlaying = true ∧ ¬s.isPaused = true) := by
    rcases h with h | h <;> simp [h]
  refine ⟨fun ctx resumeOk hctx => ?_, ?_⟩
  · unfold startPlayback
    rw [if_neg hcond, if_pos hctx]
  · unfold startPlayback
    rw [if_neg hcond,
      if_neg (by simp : ¬(CtxState.suspended = CtxState.noCtx ∨
        CtxState.suspended = CtxState.closed)),
      if_pos rfl]
    rfl

/-- Witness for C6 (amended) at a concrete stopped state with a
missing audio context. -/
theorem startPlayback_failure_stops_witness :
    startPlayback CtxState.noCtx true 0 ⟨false, false, 2, 3, 120, 16⟩ =
      (⟨false, false, 2, 3, 120, 16⟩, false) :=
  (startPlayback_failure_stops 0 ⟨false, false, 2, 3, 120, 16⟩ (Or.inl rfl)).1
    CtxState.noCtx true (Or.inl rfl)

/-- Counterexample to C2: pausing while the step cursor sits at 0 and
then resuming takes the fresh-start branch of `startPlayback`:
`nextNoteTime` is re-based to `now + 0.05` instead of being preserved
and only clamped forward (which would give `max nextNoteTime (now +
0.05)` = 100 here). -/
theorem pause_resume_rebases_time_at_cursor_zero :
    (pausePlayback ⟨true, false, 0, 100, 120, 16⟩).1.isPaused = true ∧
    (startPlayback CtxState.running true 0
        (pausePlayback ⟨true, false, 0, 100, 120, 16⟩).1).1.nextNoteTime = 1/20 ∧
    ((1:ℚ)/20 ≠ max (100:ℚ) (0 + 1/20)) := by
  have hmax : max (100:ℚ) (0 + 1/20) = 100 := max_eq_left (by norm_num)
  refine ⟨rfl, ?_, by rw [hmax]; norm_num⟩
  show (startPlayback CtxState.running true 0
      (⟨true, true, 0, 100, 120, 16⟩ : EngineState)).1.nextNoteTime = 1/20
  unfold startPlayback
  rw [if_neg (by simp), if_neg (by simp), if_neg (by simp)]
  show (doStart 0 ⟨true, true, 0, 100, 120, 16⟩).nextNoteTime = 1/20
  unfold doStart
  rw [if_pos (Or.inr rfl)]
  norm_num

/-- C2 (amended): pause is a no-op unless Playing and not Paused; for a
playing state whose cursor is nonzero and whose next-step time is set
(nonzero), pausing preserves cursor and next-step time, and resuming
(`start()` while Paused, audio clock running) re-enters Playing at the
same cursor with the next-step time clamped forward to at least the
current audio-clock time plus the 0.05 s lead-in — so no catch-up
burst.  (When the pause caught the cursor at 0, resume instead
re-bases the next-step time to `now + 0.05`, the fresh-start branch;
the cursor stays 0.) -/
theorem pause_resume_exact (s : EngineState) (now : ℚ)
    (hp : s.isPlaying = true) (hq : s.isPaused = false)
    (hc : s.currentStep ≠ 0) (ht : s.nextNoteTime ≠ 0) :
    (∀ t : EngineState, t.isPlaying = false ∨ t.isPaused = true →
        pausePlayback t = (t, false)) ∧
    (pausePlayback s).1.currentStep = s.currentStep ∧
    (pausePlayback s).1.nextNoteTime = s.nextNoteTime ∧
    (startPlayback CtxState.running true now (pausePlayback s).1).1.currentStep
        = s.currentStep ∧
    (startPlayback CtxState.running true now (pausePlayback s).1).1.nextNoteTime
        = max s.nextNoteTime (now + 1/20) ∧
    (startPlayback CtxState.running true now (pausePlayback s).1).1.isPlaying = true ∧
    (startPlayback CtxState.running true now (pausePlayback s).1).1.isPaused = false := by
  have hpause : pausePlayback s = ({ s with isPaused := true }, true) := by
    unfold pausePlayback
    rw [if_neg]
    simp [hp, hq]
  have hstart : startPlayback CtxState.running true now { s with isPaused := true } =
      (doStart now { s with isPaused := true }, true) := by
    unfold startPlayback
    rw [if_neg (by simp), if_neg (by simp), if_neg (by simp)]
  have hdo : doStart now { s with isPaused := true } =
      { s with isPlaying := true, isPaused := false,
               nextNoteTime := max s.nextNoteTime (now + 1/20) } := by
    unfold doStart
    rw [if_neg]
    simp only [not_or]
    exact ⟨ht, hc⟩
  have hfinal : (startPlayback CtxState.running true now (pausePlayback s).1).1 =
      { s with isPlaying := true, isPaused := false,
               nextNoteTime := max s.nextNoteTime (now + 1/20) } := by
    rw [hpause]
    show (startPlayback CtxState.running true now { s with isPaused := true }).1 = _
    rw [hstart, hdo]
  refine ⟨fun t h => ?_, ?_, ?_, ?_, ?_, ?_, ?_⟩
  · unfold pausePlayback
    rw [if_pos]
    rcases h with h | h <;> simp [h]
  · rw [hpause]
  · rw [hpause]
  · rw [hfinal]
  · rw [hfinal]
  · rw [hfinal]
  · rw [hfinal]

/-- Witness for C2 (amended) at a concrete playing state (cursor 3,
next-step time 10, resume at audio-clock time 100). -/
theorem pause_resume_exact_witness :
    (startPlayback CtxState.running true 100
        (pausePlayback ⟨true, false, 3, 10, 120, 16⟩).1).1.currentStep = 3 ∧
    (startPlayback CtxState.running true 100
        (pausePlayback ⟨true, false, 3, 10, 120, 16⟩).1).1.nextNoteTime
      = max 10 (100 + 1/20) :=
  ⟨(pause_resume_exact ⟨true, false, 3, 10, 120, 16⟩ 100 rfl rfl
      (by decide) (by decide)).2.2.2.1,
   (pause_resume_exact ⟨true, false, 3, 10, 120, 16⟩ 100 rfl rfl
      (by decide) (by decide)).2.2.2.2.1⟩

/-- C8: instrument lookup is total: for every table and every id it
returns either the instrument stored under that id or the built-in
default instrument — in particular an absent, empty, or sentinel id
(nothing is stored under those) yields the default, and lookup never
fails. -/
theorem getInstrument_total (insts : List (String × Instrument)) (instrumentId : String) :
    mapGet insts instrumentId = some (getInstrument insts instrumentId) ∨
    (mapGet insts instrumentId = none ∧
      getInstrument insts instrumentId = defaultInstrument) := by
  unfold getInstrument
  cases h : mapGet insts instrumentId with
  | none => exact Or.inr ⟨rfl, rfl⟩
  | some v => exact Or.inl rfl

theorem parseNoteString_eq_none (s : String) (h : parseNoteMidi s = none) :
    parseNoteString s = none := by
  unfold parseNoteString
  rw [h]
  rfl

/-- Counterexample to C4: the claim lists "C-9" as a sentinel/malformed
token resolving to invalid, but its MIDI number is 0 + 12·9 + 12 =
120 ≤ 127, so `parseNoteString` returns a frequency, not `null`. -/
theorem parseNoteString_C9_resolves :
    parseNoteMidi "C-9" = some 120 ∧ parseNoteString "C-9" ≠ none := by
  refine ⟨by decide, ?_⟩
  unfold parseNoteString
  rw [show parseNoteMidi "C-9" = some 120 from by decide]
  simp

/-- C4 (amended): malformed and sentinel tokens resolve to `null`, and
resolution never throws (it is a total function): the sentinel "---"
(with or without surrounding whitespace), the bad letter "H-4", the
empty string, the grammar failure "C4", the unrecognized sharp "E#-4",
and grammar-matching tokens whose MIDI number exceeds 127, such as
"A-9".  ("C-9", MIDI 120, is by contrast a valid note and resolves to
a frequency.) -/
theorem parseNoteString_invalid_tokens :
    parseNoteString "---" = none ∧ parseNoteString " --- " = none ∧
    parseNoteString "H-4" = none ∧ parseNoteString "" = none ∧
    parseNoteString "C4" = none ∧ parseNoteString "E#-4" = none ∧
    parseNoteString "A-9" = none :=
  ⟨parseNoteString_eq_none _ (by decide), parseNoteString_eq_none _ (by decide),
   parseNoteString_eq_none _ (by decide), parseNoteString_eq_none _ (by decide),
   parseNoteString_eq_none _ (by decide), parseNoteString_eq_none _ (by decide),
   parseNoteString_eq_none _ (by decide)⟩

/-- Counterexample to C3: "A-9" matches the note grammar (letter A, no
sharp, digit 9) but its MIDI number 9 + 12·9 + 12 = 129 exceeds 127,
so `parseNoteString` returns `null` instead of the claimed frequency
440·2^((129−69)/12). -/
theorem parseNoteString_A9_not_formula :
    matchNoteToken (jsTrim ("A-9".data.map jsToUpperChar)) = some ('A', false, '9') ∧
    parseNoteString "A-9" ≠ some (440 * (2:ℝ) ^ ((((129:ℤ):ℝ) - 69) / 12)) := by
  refine ⟨by decide, ?_⟩
  rw [parseNoteString_eq_none "A-9" (by decide)]
  simp

theorem two_rpow_quarter_pow_four : ((2:ℝ) ^ ((1:ℝ)/4)) ^ (4:ℕ) = 2 := by
  rw [← Real.rpow_natCast ((2:ℝ) ^ ((1:ℝ)/4)) 4,
    ← Real.rpow_mul (by norm_num : (0:ℝ) ≤ 2)]
  norm_num

theorem two_rpow_quarter_bounds :
    (1.1892:ℝ) < (2:ℝ) ^ ((1:ℝ)/4) ∧ (2:ℝ) ^ ((1:ℝ)/4) < 1.18922 := by
  have hpos : (0:ℝ) < (2:ℝ) ^ ((1:ℝ)/4) := Real.rpow_pos_of_pos (by norm_num) _
  constructor
  · refine lt_of_pow_lt_pow_left₀ 4 (le_of_lt hpos) ?_
    rw [two_rpow_quarter_pow_four]
    norm_num
  · refine lt_of_pow_lt_pow_left₀ 4 (by norm_num) ?_
    rw [two_rpow_quarter_pow_four]
    norm_num

theorem noteFrequency_sixty : noteFrequency 60 = 220 * ((2:ℝ) ^ ((1:ℝ)/4)) := by
  unfold noteFrequency
  rw [show ((((60:ℤ):ℝ) - 69) / 12) = (1:ℝ)/4 - 1 by norm_num,
    Real.rpow_sub (by norm_num), Real.rpow_one]
  ring

/-- C3 (amended): every grammar-matching token whose note name has a
semitone entry (E#/B# do not) and whose MIDI number
`semitone + 12·octave + 12` lies in [0,127] resolves to
440·2^((midi−69)/12) Hz; "A-4" resolves to exactly 440 Hz, "A-5" to
exactly 880 Hz, and "C-4" to within 0.01 of 261.63 Hz.  (Grammar
tokens with MIDI above 127, e.g. "A-9", instead resolve to invalid.) -/
theorem parseNoteString_equal_tempered (s : String) (b : Char) (sharp : Bool) (d : Char)
    (semitone midi : ℤ)
    (hne : s.data ≠ [])
    (hsent : jsTrim s.data ≠ ['-', '-', '-'])
    (hmatch : matchNoteToken (jsTrim (s.data.map jsToUpperChar)) = some (b, sharp, d))
    (hname : noteValues.lookup (String.mk [b] ++ (if sharp then "#" else "")) = some semitone)
    (hmidi : midi = semitone + ((d.toNat - '0'.toNat : ℕ) : ℤ) * 12 + 12)
    (h0 : 0 ≤ midi) (h127 : midi ≤ 127) :
    parseNoteString s = some (440 * (2:ℝ) ^ (((midi : ℝ) - 69) / 12)) ∧
    parseNoteString "A-4" = some 440 ∧
    parseNoteString "A-5" = some 880 ∧
    (∃ f, parseNoteString "C-4" = some f ∧ |f - 261.63| < 1/100) := by
  subst hmidi
  refine ⟨?_, ?_, ?_, ?_⟩
  · have hgen : parseNoteMidi s =
        some (semitone + ((d.toNat - '0'.toNat : ℕ) : ℤ) * 12 + 12) := by
      simp only [parseNoteMidi, if_neg hne, if_neg hsent, hmatch, hname]
      rw [if_neg (by omega)]
    unfold parseNoteString
    rw [hgen]
    rfl
  · unfold parseNoteString
    rw [show parseNoteMidi "A-4" = some 69 from by decide]
    show some (noteFrequency 69) = some 440
    unfold noteFrequency
    rw [show ((((69:ℤ):ℝ) - 69) / 12) = (0:ℝ) by norm_num, Real.rpow_zero]
    norm_num
  · unfold parseNoteString
    rw [show parseNoteMidi "A-5" = some 81 from by decide]
    show some (noteFrequency 81) = some 880
    unfold noteFrequency
    rw [show ((((81:ℤ):ℝ) - 69) / 12) = (1:ℝ) by norm_num, Real.rpow_one]
    norm_num
  · refine ⟨noteFrequency 60, ?_, ?_⟩
    · unfold parseNoteString
      rw [show parseNoteMidi "C-4" = some 60 from by decide]
      rfl
    · have hx := two_rpow_quarter_bounds
      rw [noteFrequency_sixty, abs_lt]
      constructor <;> nlinarith [hx.1, hx.2]

/-- Witness for C3 (amended) instantiated at the token "A-4"
(semitone 9, MIDI 69). -/
theorem parseNoteString_equal_tempered_witness :
    parseNoteString "A-4" = some 440 :=
  (parseNoteString_equal_tempered "A-4" 'A' false '4' 9 69 (by decide) (by decide)
    (by decide) (by decide) (by decide) (by decide) (by decide)).2.1

theorem envValueFrom_set_le {t0 v0 v te t : ℚ} {es : List GainEvent} (h : te ≤ t) :
    envValueFrom t0 v0 (GainEvent.setValueAtTime v te :: es) t = envValueFrom te v es t := by
  show (if te ≤ t then envValueFrom te v es t else v0) = _
  rw [if_pos h]

theorem envValueFrom_set_gt {t0 v0 v te t : ℚ} {es : List GainEvent} (h : ¬ te ≤ t) :
    envValueFrom t0 v0 (GainEvent.setValueAtTime v te :: es) t = v0 := by
  show (if te ≤ t then envValueFrom te v es t else v0) = _
  rw [if_neg h]

theorem envValueFrom_ramp_le {t0 v0 v te t : ℚ} {es : List GainEvent} (h : te ≤ t) :
    envValueFrom t0 v0 (GainEvent.linearRampToValueAtTime v te :: es) t =
      envValueFrom te v es t := by
  show (if te ≤ t then envValueFrom te v es t
        else v0 + (v - v0) * (t - t0) / (te - t0)) = _
  rw [if_pos h]

theorem envValueFrom_ramp_gt {t0 v0 v te t : ℚ} {es : List GainEvent} (h : ¬ te ≤ t) :
    envValueFrom t0 v0 (GainEvent.linearRampToValueAtTime v te :: es) t =
      v0 + (v - v0) * (t - t0) / (te - t0) := by
  show (if te ≤ t then envValueFrom te v es t
        else v0 + (v - v0) * (t - t0) / (te - t0)) = _
  rw [if_neg h]

/-- The envelope committed by `scheduleNote` for a note longer than
attack+decay, sampled at the four breakpoints: 0 at note start, peak at
attack end, peak·sustain at decay end, 0 at note-off + release. -/
theorem envValueAt_adsr (t a d r p s dur : ℚ)
    (ha : 0 < a) (hd : 0 < d) (hr : 0 < r) (hdur : a + d < dur) :
    envValueAt [GainEvent.setValueAtTime 0 t,
      GainEvent.linearRampToValueAtTime p (t + a),
      GainEvent.linearRampToValueAtTime (p * s) (t + a + d),
      GainEvent.setValueAtTime (p * s) (t + dur),
      GainEvent.linearRampToValueAtTime 0 (t + dur + r)] t = 0 ∧
    envValueAt [GainEvent.setValueAtTime 0 t,
      GainEvent.linearRampToValueAtTime p (t + a),
      GainEvent.linearRampToValueAtTime (p * s) (t + a + d),
      GainEvent.setValueAtTime (p * s) (t + dur),
      GainEvent.linearRampToValueAtTime 0 (t + dur + r)] (t + a) = p ∧
    envValueAt [GainEvent.setValueAtTime 0 t,
      GainEvent.linearRampToValueAtTime p (t + a),
      GainEvent.linearRampToValueAtTime (p * s) (t + a + d),
      GainEvent.setValueAtTime (p * s) (t + dur),
      GainEvent.linearRampToValueAtTime 0 (t + dur + r)] (t + a + d) = p * s ∧
    envValueAt [GainEvent.setValueAtTime 0 t,
      GainEvent.linearRampToValueAtTime p (t + a),
      GainEvent.linearRampToValueAtTime (p * s) (t + a + d),
      GainEvent.setValueAtTime (p * s) (t + dur),
      GainEvent.linearRampToValueAtTime 0 (t + dur + r)] (t + dur + r) = 0 := by
  unfold envValueAt
  refine ⟨?_, ?_, ?_, ?_⟩
  · rw [envValueFrom_set_le (le_refl t), envValueFrom_ramp_gt (by linarith)]
    simp
  · rw [envValueFrom_set_le (by linarith), envValueFrom_ramp_le (le_refl (t + a)),
      envValueFrom_ramp_gt (by linarith)]
    simp
  · rw [envValueFrom_set_le (by linarith), envValueFrom_ramp_le (by linarith),
      envValueFrom_ramp_le (le_refl (t + a + d)), envValueFrom_set_gt (by linarith)]
  · rw [envValueFrom_set_le (by linarith), envValueFrom_ramp_le (by linarith),
      envValueFrom_ramp_le (by linarith), envValueFrom_set_le (by linarith),
      envValueFrom_ramp_le (le_refl (t + dur + r))]
    rfl

/-- C7: for every note scheduled with the audio output available and
both volume and velocity given, the peak amplitude equals
clamp(volume,0,1)·clamp(velocity,0,1); attack, decay and release are
each floored at 1 ms; and (for a note longer than attack+decay) the
gain envelope is 0 at note start, peak at the end of the attack ramp,
peak·sustainLevel at the end of the decay ramp, and 0 at note-off time
plus the release. -/
theorem scheduleNote_envelope (ctx : CtxState) (info : NoteInfo) (time duration : ℚ)
    (inst : Instrument) (pitch vol vel : ℚ) (sn : ScheduledNote)
    (hctx1 : ctx ≠ CtxState.noCtx) (hctx2 : ctx ≠ CtxState.closed)
    (hpitch : info.pitch = some pitch)
    (hvol : inst.volume = some vol) (hvel : info.velocity = some vel)
    (hsn : scheduleNote ctx (some info) time duration (some inst) = some sn)
    (hdur : sn.attack + sn.decay < duration) :
    sn.peakVolume = clamp01 vol * clamp01 vel ∧
    1/1000 ≤ sn.attack ∧ 1/1000 ≤ sn.decay ∧ 1/1000 ≤ sn.release ∧
    envValueAt sn.gainEvents time = 0 ∧
    envValueAt sn.gainEvents (time + sn.attack) = sn.peakVolume ∧
    envValueAt sn.gainEvents (time + sn.attack + sn.decay) = sn.peakVolume * sn.sustain ∧
    envValueAt sn.gainEvents (time + duration + sn.release) = 0 := by
  simp only [scheduleNote, hpitch, hvol, hvel, Option.getD_some] at hsn
  rw [if_neg (by simp [hctx1, hctx2])] at hsn
  obtain rfl := Option.some.inj hsn
  dsimp only at hdur ⊢
  have hA : (1/1000:ℚ) ≤ max (1/1000) (jsOrQ inst.attack (1/100)) := le_max_left _ _
  have hD : (1/1000:ℚ) ≤ max (1/1000) (jsOrQ inst.decay (1/10)) := le_max_left _ _
  have hR : (1/1000:ℚ) ≤ max (1/1000) (jsOrQ inst.releaseTime (1/5)) := le_max_left _ _
  have hA0 : (0:ℚ) < max (1/1000) (jsOrQ inst.attack (1/100)) :=
    lt_of_lt_of_le (by norm_num) hA
  have hD0 : (0:ℚ) < max (1/1000) (jsOrQ inst.decay (1/10)) :=
    lt_of_lt_of_le (by norm_num) hD
  have hR0 : (0:ℚ) < max (1/1000) (jsOrQ inst.releaseTime (1/5)) :=
    lt_of_lt_of_le (by norm_num) hR
  have hcond : time + duration > time + max (1/1000) (jsOrQ inst.attack (1/100))
      + max (1/1000) (jsOrQ inst.decay (1/10)) := by linarith
  have hadsr := envValueAt_adsr time
    (max (1/1000) (jsOrQ inst.attack (1/100)))
    (max (1/1000) (jsOrQ inst.decay (1/10)))
    (max (1/1000) (jsOrQ inst.releaseTime (1/5)))
    (clamp01 vol * clamp01 vel)
    (clamp01 ((inst.sustainLevel).getD (7/10)))
    duration hA0 hD0 hR0 hdur
  rw [if_pos hcond]
  exact ⟨rfl, hA, hD, hR, hadsr.1, hadsr.2.1, hadsr.2.2.1, hadsr.2.2.2⟩

/-- Witness for C7: the default instrument playing a 440 Hz note of
velocity 0.5 for one second starting at time 0. -/
theorem scheduleNote_envelope_witness :
    scheduleNote CtxState.running (some { pitch := some 440, velocity := some (1/2) }) 0 1
        (some defaultInstrument) = some sampleNote ∧
    sampleNote.attack + sampleNote.decay < 1 ∧
    sampleNote.peakVolume = clamp01 (7/10) * clamp01 (1/2) ∧
    envValueAt sampleNote.gainEvents (0 + sampleNote.attack) = sampleNote.peakVolume := by
  have hsn : scheduleNote CtxState.running
      (some { pitch := some 440, velocity := some (1/2) }) 0 1
      (some defaultInstrument) = some sampleNote := by
    simp only [scheduleNote, defaultInstrument, Option.getD_some]
    rw [if_neg (by simp)]
    simp only [sampleNote, jsOrQ, jsOrStr, clamp01, max_def, Option.some.injEq,
      ScheduledNote.mk.injEq]
    norm_num
  obtain ⟨hpeak, -, -, -, -, henvA, -, -⟩ :=
    scheduleNote_envelope CtxState.running { pitch := some 440, velocity := some (1/2) }
      0 1 defaultInstrument 440 (7/10) (1/2) sampleNote (by decide) (by decide) rfl rfl rfl hsn
      (by norm_num [sampleNote])
  exact ⟨hsn, by norm_num [sampleNote], hpeak, henvA⟩

theorem mapGet_cons (a : String) (b : Instrument) (rest : List (String × Instrument))
    (k : String) :
    mapGet ((a, b) :: rest) k = if k = a then some b else mapGet rest k := rfl

theorem loadInstrument_invalid (insts : List (String × Instrument))
    (o : Option Instrument) (h : validEntry o = false) :
    loadInstrument insts o = insts := by
  cases o with
  | none => rfl
  | some obj =>
    cases hid : obj.id with
    | none => simp only [loadInstrument, hid]
    | some i =>
      simp only [validEntry, hid] at h
      simp only [loadInstrument, hid]
      by_cases hi : i = ""
      · rw [if_pos hi]
      · rw [if_neg hi] at h
        exact absurd h (by simp)

theorem foldl_loadInstrument_filter (arr : List (Option Instrument))
    (acc : List (String × Instrument)) :
    arr.foldl loadInstrument acc = (arr.filter validEntry).foldl loadInstrument acc := by
  induction arr generalizing acc with
  | nil => rfl
  | cons o rest ih =>
    cases hv : validEntry o with
    | false =>
      rw [List.foldl_cons, List.filter_cons_of_neg (by simp [hv]),
        loadInstrument_invalid acc o hv]
      exact ih acc
    | true =>
      rw [List.foldl_cons, List.filter_cons_of_pos (by simp [hv]), List.foldl_cons]
      exact ih (loadInstrument acc o)

/-- C9: bulk loading clears the table and loads entries one at a time;
an entry with a falsy id (or a falsy object) is skipped without
affecting the others, so the result is exactly the table built from
the valid entries alone; an empty or malformed (non-array) input
leaves the table empty. -/
theorem loadInstrumentsData_valid_entries (insts : List (String × Instrument))
    (arr : List (Option Instrument)) :
    loadInstrumentsData insts (some arr) =
      loadInstrumentsData insts (some (arr.filter validEntry)) ∧
    loadInstrumentsData insts (some []) = [] ∧
    loadInstrumentsData insts none = [] :=
  ⟨foldl_loadInstrument_filter arr [], rfl, rfl⟩

theorem mapGet_append_left_none {m1 m2 : List (String × Instrument)} {k : String}
    (h : mapGet m1 k = none) : mapGet (m1 ++ m2) k = mapGet m2 k := by
  induction m1 with
  | nil => rfl
  | cons p rest ih =>
    obtain ⟨a, b⟩ := p
    rw [mapGet_cons] at h
    rw [List.cons_append, mapGet_cons]
    by_cases hp : k = a
    · rw [if_pos hp] at h
      exact absurd h (by simp)
    · rw [if_neg hp] at h
      rw [if_neg hp]
      exact ih h

theorem mapSet_append {m : List (String × Instrument)} {k : String} {v : Instrument}
    (h : mapGet m k = none) : mapSet m k v = m ++ [(k, v)] := by
  unfold mapSet
  rw [h]
  rfl

theorem mapGet_map_replace (m : List (String × Instrument)) (k : String) (v : Instrument)
    (h : (mapGet m k).isSome = true) :
    mapGet (m.map (fun p => if p.1 = k then (k, v) else p)) k = some v := by
  induction m with
  | nil => simp [mapGet] at h
  | cons p rest ih =>
    obtain ⟨a, b⟩ := p
    rw [mapGet_cons] at h
    rw [List.map_cons]
    by_cases hp : k = a
    · rw [if_pos (show (a, b).1 = k from hp.symm), mapGet_cons, if_pos rfl]
    · rw [if_neg hp] at h
      rw [if_neg (show ¬((a, b).1 = k) from fun he => hp he.symm), mapGet_cons,
        if_neg hp]
      exact ih h

theorem mapGet_mapSet_self (m : List (String × Instrument)) (k : String) (v : Instrument) :
    mapGet (mapSet m k v) k = some v := by
  unfold mapSet
  by_cases h : (mapGet m k).isSome = true
  · rw [if_pos h]
    exact mapGet_map_replace m k v h
  · rw [if_neg h]
    have hnone : mapGet m k = none := by
      cases hm : mapGet m k with
      | none => rfl
      | some v0 => rw [hm] at h; exact absurd rfl h
    rw [mapGet_append_left_none hnone, mapGet_cons, if_pos rfl]

theorem foldl_load_valid_append (arr : List Instrument) :
    ∀ acc : List (String × Instrument),
      (∀ i ∈ arr, ∃ s, i.id = some s ∧ s ≠ "") →
      (arr.map keyOf).Nodup →
      (∀ i ∈ arr, mapGet acc (keyOf i) = none) →
      (arr.map some).foldl loadInstrument acc =
        acc ++ arr.map (fun i => (keyOf i, i)) := by
  induction arr with
  | nil =>
    intro acc _ _ _
    simp
  | cons x rest ih =>
    intro acc hvalid hnodup hdisj
    obtain ⟨s, hs, hne⟩ := hvalid x (List.mem_cons_self x rest)
    have hkey : keyOf x = s := by simp [keyOf, hs]
    have hstep : loadInstrument acc (some x) = acc ++ [(s, x)] := by
      simp only [loadInstrument, hs]
      rw [if_neg hne]
      exact mapSet_append (hkey ▸ hdisj x (List.mem_cons_self x rest))
    rw [List.map_cons, List.foldl_cons, hstep]
    rw [List.map_cons] at hnodup
    have hxnotin : keyOf x ∉ rest.map keyOf := (List.nodup_cons.mp hnodup).1
    have hd' : ∀ i ∈ rest, mapGet (acc ++ [(s, x)]) (keyOf i) = none := by
      intro i hi
      rw [mapGet_append_left_none (hdisj i (List.mem_cons_of_mem _ hi)), mapGet_cons,
        if_neg (fun he : keyOf i = s =>
          hxnotin ((he.trans hkey.symm) ▸ List.mem_map_of_mem keyOf hi))]
      rfl
    rw [ih (acc ++ [(s, x)])
      (fun i hi => hvalid i (List.mem_cons_of_mem _ hi))
      (List.nodup_cons.mp hnodup).2 hd']
    simp [hkey, List.append_assoc]

/-- C10: loading an array of instruments with truthy, pairwise-distinct
ids and then listing the store returns exactly that array in insertion
order; and after loading any array, the entry stored under a valid id
is the array's last entry carrying it, so on a repeated id the later
entry replaces the earlier one. -/
theorem loadInstruments_roundtrip (insts : List (String × Instrument))
    (arr : List Instrument)
    (hvalid : ∀ i ∈ arr, ∃ s, i.id = some s ∧ s ≠ "")
    (hnodup : (arr.map keyOf).Nodup) :
    getInstrumentsData (loadInstrumentsData insts (some (arr.map some))) = arr ∧
    (∀ (xs : List Instrument) (x : Instrument) (s : String),
      x.id = some s → s ≠ "" →
      mapGet (loadInstrumentsData insts (some ((xs ++ [x]).map some))) s = some x) := by
  constructor
  · show getInstrumentsData ((arr.map some).foldl loadInstrument []) = arr
    rw [foldl_load_valid_append arr [] hvalid hnodup (fun i _ => rfl)]
    simp only [getInstrumentsData, List.nil_append, List.map_map]
    exact List.map_id arr
  · intro xs x s hs hne
    show mapGet (((xs ++ [x]).map some).foldl loadInstrument []) s = some x
    rw [List.map_append, List.foldl_append]
    show mapGet (loadInstrument ((xs.map some).foldl loadInstrument []) (some x)) s
      = some x
    simp only [loadInstrument, hs]
    rw [if_neg hne]
    exact mapGet_mapSet_self _ s x

/-- Witness for C10 at a two-instrument array with distinct ids "a"
and "b". -/
theorem loadInstruments_roundtrip_witness :
    getInstrumentsData (loadInstrumentsData []
        (some ([{ id := some "a" }, { id := some "b" }].map some))) =
      [({ id := some "a" } : Instrument), { id := some "b" }] :=
  (loadInstruments_roundtrip [] [{ id := some "a" }, { id := some "b" }]
    (by
      intro i hi
      simp only [List.mem_cons, List.not_mem_nil, or_false] at hi
      rcases hi with rfl | rfl
      · exact ⟨"a", rfl, by decide⟩
      · exact ⟨"b", rfl, by decide⟩)
    (by simp [keyOf])).1

end TbirdEngine
